import Mathlib

/-!
Verification of the earthquake-monitor core: a shallow embedding of the
EEW (early-earthquake-warning) reconciliation state machine, the feed
message handlers, the gazetteer lookup, the viewport fitting engine and
the wave-propagation animator, translated from `src/App.tsx` and
`src/components/MapComponent.tsx`.

Strings are modelled as `List Char` (so JS `includes` / `startsWith`
are decidable list predicates), pixel and geographic arithmetic as `ℚ`
(the source uses JS doubles; all quantities of interest here are exact
decimals), and JS numbers that can be NaN or infinite as the `JSNum`
type.
-/

/-- JS strings, modelled as character lists. -/
abbrev JStr := List Char

/-- JS `hay.includes(needle)`: `needle` occurs contiguously in `hay`. -/
def containsSub (hay needle : JStr) : Bool :=
  match hay with
  | [] => needle.isEmpty
  | _ :: t => needle.isPrefixOf hay || containsSub t needle

/-- The cancellation marker the source looks for in `data.Title`. -/
def cancelMarker : JStr := ['取', '消']

/-- Japanese warning marker from `data.Title.includes("警報")`. -/
def warningMarkerJa : JStr := ['警', '報']

/-- English warning marker from `data.Title.includes("Warning")`. -/
def warningMarkerEn : JStr := ['W', 'a', 'r', 'n', 'i', 'n', 'g']

/-- The ECMA `Infinity` literal recognised by `parseFloat`. -/
def infinityLit : JStr := ['I', 'n', 'f', 'i', 'n', 'i', 't', 'y']

/-- A JS number as produced by `parseFloat`: a finite value (represented
exactly as a rational; IEEE rounding of decimal literals is not
modelled), an infinity, or NaN. -/
inductive JSNum where
  | val (q : ℚ)
  | posInf
  | negInf
  | nan
deriving DecidableEq, Repr

/-- JS `isNaN` on a `JSNum`. -/
def JSNum.isNaN : JSNum → Bool
  | JSNum.nan => true
  | _ => false

/-- Whitespace skipped by `parseFloat`. -/
def isJsWhitespace (c : Char) : Bool :=
  c = ' ' || c = '\t' || c = '\n' || c = '\r'

/-- Numeric value of a digit string (most significant first). -/
def digitsVal (ds : JStr) : ℕ :=
  ds.foldl (fun a c => 10 * a + (c.toNat - '0'.toNat)) 0

/-- `10 ^ e` for an integer exponent, as a rational. -/
def pow10 (e : ℤ) : ℚ :=
  if 0 ≤ e then (10 : ℚ) ^ e.toNat else 1 / (10 : ℚ) ^ (-e).toNat

/-- Leading digit run and the remainder of the string. -/
def splitDigits (s : JStr) : JStr × JStr :=
  (s.takeWhile Char.isDigit, s.dropWhile Char.isDigit)

/-- Signed exponent digits of a decimal literal; an exponent marker with
no digits contributes nothing (ECMA: the literal ends before it). -/
def expDigitsVal (r : JStr) (esign : ℤ) : ℤ :=
  let ds := r.takeWhile Char.isDigit
  if ds.isEmpty then 0 else esign * (digitsVal ds : ℤ)

/-- Body of `parseFloat` after the optional sign: the `Infinity`
literal, or a decimal literal `digits [. digits] [e [sign] digits]`;
no digits at all gives NaN. -/
def parseFloatUnsigned (s : JStr) (sign : ℚ) : JSNum :=
  if infinityLit.isPrefixOf s then
    (if sign < 0 then JSNum.negInf else JSNum.posInf)
  else
    let p1 := splitDigits s
    let p2 := match p1.2 with
      | '.' :: r => splitDigits r
      | _ => ([], p1.2)
    if p1.1.isEmpty && p2.1.isEmpty then JSNum.nan
    else
      let mant : ℚ := (digitsVal p1.1 : ℚ) + (digitsVal p2.1 : ℚ) / pow10 (p2.1.length : ℤ)
      let exp : ℤ :=
        match p2.2 with
        | c :: r =>
          if c = 'e' || c = 'E' then
            match r with
            | '+' :: r2 => expDigitsVal r2 1
            | '-' :: r2 => expDigitsVal r2 (-1)
            | r2 => expDigitsVal r2 1
          else 0
        | [] => 0
      JSNum.val (sign * mant * pow10 exp)

/-- JS `parseFloat`: skip whitespace, optional sign, then the longest
numeric literal; `Infinity` is accepted, failure yields NaN. -/
def parseFloat (s : JStr) : JSNum :=
  let t := s.dropWhile isJsWhitespace
  match t with
  | '+' :: r => parseFloatUnsigned r 1
  | '-' :: r => parseFloatUnsigned r (-1)
  | _ => parseFloatUnsigned t 1

/-- An inbound frame of the Wolfx early-warning feed, with the fields
`handleLiveWolfxEEW` reads (`src/App.tsx`). Optional string fields model
TS optionality plus JS falsiness of the empty string via `jsTruthyStr`. -/
structure WolfxEEWData where
  isCancel : Option Bool
  Title : JStr
  isFinal : Option Bool
  Hypocenter : Option JStr
  Magnitude : Option JStr
  Depth : Option JStr
  MaxIntensity : Option JStr
  AnnouncedTime : Option JStr
deriving DecidableEq, Repr

/-- JS truthiness of an optional string: `undefined` and `""` are falsy. -/
def jsTruthyStr : Option JStr → Bool
  | none => false
  | some s => !s.isEmpty

/-- The derived early-warning state (`EEWState` in `types.ts`, as used by
`src/App.tsx`). `depth` is the result of `parseInt` on a digit-filtered
string, hence a natural number when defined. -/
structure EEWState where
  isActive : Bool
  isWarning : Bool
  isFinal : Bool
  hypocenterName : Option JStr
  magnitude : Option JSNum
  depth : Option ℕ
  maxIntensity : Option JStr
  areas : List JStr
  occurredTime : Option JStr
  title : Option JStr
  updatedTime : Option ℤ
deriving DecidableEq, Repr

/-- The initial state `{ isActive: false, isWarning: false, isFinal: false, areas: [] }`. -/
def initialEEW : EEWState :=
  { isActive := false, isWarning := false, isFinal := false
    hypocenterName := none, magnitude := none, depth := none
    maxIntensity := none, areas := [], occurredTime := none
    title := none, updatedTime := none }

/-- The cancellation test `data.isCancel || data.Title.includes("取消")`. -/
def isCancelFrame (d : WolfxEEWData) : Bool :=
  d.isCancel.getD false || containsSub d.Title cancelMarker

/-- `handleLiveWolfxEEW` (`src/App.tsx` lines 130-164). A cancel frame
replaces the state by the literal `{ isActive: false, isWarning: false,
isFinal: true, areas: [] }` (all other fields undefined); any other
frame builds a whole new state from the frame alone — `setLiveEEW` is
called with an object literal, so the previous state is not consulted.
`now` stands for `Date.now()`. -/
def handleLiveWolfxEEW (now : ℤ) (data : WolfxEEWData) : EEWState :=
  if isCancelFrame data then
    { isActive := false, isWarning := false, isFinal := true
      hypocenterName := none, magnitude := none, depth := none
      maxIntensity := none, areas := [], occurredTime := none
      title := none, updatedTime := none }
  else
    { isActive := true
      isWarning := containsSub data.Title warningMarkerJa || containsSub data.Title warningMarkerEn
      isFinal := data.isFinal.getD false
      hypocenterName := data.Hypocenter
      magnitude :=
        match data.Magnitude with
        | none => none
        | some s =>
          if s.isEmpty then none
          else if (parseFloat s).isNaN then none else some (parseFloat s)
      depth :=
        match data.Depth with
        | none => none
        | some s =>
          if s.isEmpty then none
          else
            let ds := s.filter Char.isDigit
            if ds.isEmpty then none else some (digitsVal ds)
      maxIntensity := data.MaxIntensity
      areas := []
      occurredTime := data.AnnouncedTime
      title := some data.Title
      updatedTime := some now }

/-- One state transition of the live EEW store on an inbound frame.
The handler ignores the previous state (full replacement). -/
def stepEEW (now : ℤ) (st : EEWState) (d : WolfxEEWData) : EEWState :=
  let _ := st
  handleLiveWolfxEEW now d

/-- Processing a sequence of frames in arrival order. -/
def processFrames (now : ℤ) (st : EEWState) (frames : List WolfxEEWData) : EEWState :=
  frames.foldl (stepEEW now) st

/-- The application's view mode. -/
inductive ViewMode where
  | live
  | history
  | simulation
deriving DecidableEq, Repr

/-- One evaluation of the EEW timeout logic (`src/App.tsx` lines 70-81):
the effect returns early unless the mode is live and the state active;
the interval body clears the state when `updatedTime` is truthy (the
number 0 is falsy in JS) and older than 20000 ms. -/
def eewTimeoutTick (mode : ViewMode) (now : ℤ) (st : EEWState) : EEWState :=
  if mode = ViewMode.live ∧ st.isActive = true then
    match st.updatedTime with
    | some t =>
      if t ≠ 0 ∧ now - t > 20000 then { st with isActive := false, areas := [] } else st
    | none => st
  else st

/-- The tag compared against `data.Type` / `data.type` in `connectWolfx`. -/
def jmaEEWTag : JStr := ['j', 'm', 'a', '_', 'e', 'e', 'w']

/-- A successfully parsed Wolfx message: the two probed tag fields plus
the frame payload. -/
structure WolfxParsed where
  typeUpper : Option JStr
  typeLower : Option JStr
  payload : WolfxEEWData
deriving DecidableEq, Repr

/-- A successfully parsed P2P message (only `code` is inspected). -/
structure P2PParsed where
  code : ℤ
deriving DecidableEq, Repr

/-- Observable effects of the feed event handlers. -/
inductive FeedAction where
  | setConnected
  | setDisconnected
  | scheduleReconnect (delayMs : ℕ)
  | dispatchEEW (d : WolfxEEWData)
  | dispatchQuake (code : ℤ)
  | logParseError
  | raiseUncaught
  | closeSocket
deriving DecidableEq, Repr

/-- `connectWolfx`'s `onmessage` (`src/App.tsx` lines 184-191): the parse
is wrapped in try/catch; `none` models `JSON.parse` throwing, in which
case the handler only logs (`console.error`) — the socket stays open. -/
def wolfxOnMessage : Option WolfxParsed → List FeedAction
  | none => [FeedAction.logParseError]
  | some d =>
    if d.typeUpper = some jmaEEWTag ∨ d.typeLower = some jmaEEWTag then
      [FeedAction.dispatchEEW d.payload]
    else []

/-- `connectWolfx`'s `onclose`: mark disconnected and retry in 5000 ms. -/
def wolfxOnClose : List FeedAction :=
  [FeedAction.setDisconnected, FeedAction.scheduleReconnect 5000]

/-- `connectWolfx`'s `onerror`: close the socket. -/
def wolfxOnError : List FeedAction := [FeedAction.closeSocket]

/-- `connectP2P`'s `onmessage` (`src/App.tsx` lines 172-175): no
try/catch, so a parse failure raises an uncaught exception out of the
event handler — which does not close the socket either. -/
def p2pOnMessage : Option P2PParsed → List FeedAction
  | none => [FeedAction.raiseUncaught]
  | some d => if d.code = 551 then [FeedAction.dispatchQuake d.code] else []

/-- `connectP2P`'s `onclose`: mark disconnected and retry in 5000 ms. -/
def p2pOnClose : List FeedAction :=
  [FeedAction.setDisconnected, FeedAction.scheduleReconnect 5000]

/-- `connectP2P`'s `onerror`: close the socket. -/
def p2pOnError : List FeedAction := [FeedAction.closeSocket]

/-- The static gazetteer `STATION_COORDINATES`: place name → `[lat, lon]`,
in table iteration order. -/
abbrev Gazetteer := List (JStr × (ℚ × ℚ))

/-- The key-selection chain of `findCoordinate`: an exact key match,
else a key that is a prefix of the name (`name.startsWith(k)`), else a
key contained in the name (`name.includes(k)`); `find?` returns the
first key in gazetteer order, as `keys.find(...)` does. -/
def matchKey (keys : List JStr) (name : JStr) : Option JStr :=
  match keys.find? (fun k => k == name) with
  | some k => some k
  | none =>
    match keys.find? (fun k => k.isPrefixOf name) with
    | some k => some k
    | none => keys.find? (fun k => containsSub name k)

/-- `findCoordinate` (`src/components/MapComponent.tsx` lines 149-160):
resolve the name through `matchKey` over the gazetteer keys; the winning
key's `[lat, lon]` entry is returned as `[lon, lat]`, and no match
yields `null`. -/
def findCoordinate (gaz : Gazetteer) (name : JStr) : Option (ℚ × ℚ) :=
  match matchKey (gaz.map Prod.fst) name with
  | some k =>
    match gaz.lookup k with
    | some c => some (c.2, c.1)
    | none => none
  | none => none

/-- A d3 zoom transform: scale `k` and translation `(tx, ty)`. -/
structure ZoomTransform where
  k : ℚ
  tx : ℚ
  ty : ℚ
deriving DecidableEq, Repr

/-- `Math.min` on two rationals, as an executable conditional. -/
def jsMin (a b : ℚ) : ℚ := if a ≤ b then a else b

/-- Bounding-box fold over projected points, with the source's explicit
comparison `if (x < minX) minX = x`; the source folds from `Infinity`,
which on a nonempty list equals folding from the first point. -/
def bbMinX (p : ℚ × ℚ) (rest : List (ℚ × ℚ)) : ℚ :=
  rest.foldl (fun a q => if q.1 < a then q.1 else a) p.1

/-- Bounding-box maximum of the x coordinates (`if (x > maxX) maxX = x`). -/
def bbMaxX (p : ℚ × ℚ) (rest : List (ℚ × ℚ)) : ℚ :=
  rest.foldl (fun a q => if a < q.1 then q.1 else a) p.1

/-- Bounding-box minimum of the y coordinates. -/
def bbMinY (p : ℚ × ℚ) (rest : List (ℚ × ℚ)) : ℚ :=
  rest.foldl (fun a q => if q.2 < a then q.2 else a) p.2

/-- Bounding-box maximum of the y coordinates. -/
def bbMaxY (p : ℚ × ℚ) (rest : List (ℚ × ℚ)) : ℚ :=
  rest.foldl (fun a q => if a < q.2 then q.2 else a) p.2

/-- `scaleX = (width * (1 - paddingPercent * 2)) / boundsWidth`. -/
def fitScaleX (width padding : ℚ) (p : ℚ × ℚ) (rest : List (ℚ × ℚ)) : ℚ :=
  width * (1 - padding * 2) / (bbMaxX p rest - bbMinX p rest)

/-- `scaleY = (height * (1 - paddingPercent * 2)) / boundsHeight`. -/
def fitScaleY (height padding : ℚ) (p : ℚ × ℚ) (rest : List (ℚ × ℚ)) : ℚ :=
  height * (1 - padding * 2) / (bbMaxY p rest - bbMinY p rest)

/-- `Math.min(scaleX, scaleY)` with JS division-by-zero semantics made
explicit: a zero-width (resp. zero-height) box gives scale `Infinity`,
so the minimum is the other factor. -/
def fitKRaw (width height padding : ℚ) (p : ℚ × ℚ) (rest : List (ℚ × ℚ)) : ℚ :=
  if bbMaxX p rest - bbMinX p rest = 0 then fitScaleY height padding p rest
  else if bbMaxY p rest - bbMinY p rest = 0 then fitScaleX width padding p rest
  else jsMin (fitScaleX width padding p rest) (fitScaleY height padding p rest)

/-- The zoom clamp `if (k > 8) k = 8; if (k < 0.2) k = 0.2;`. -/
def clampZoom (k : ℚ) : ℚ :=
  if k > 8 then 8 else if k < 1 / 5 then 1 / 5 else k

/-- The final scale factor of the multi-point branch of `fitBounds`. -/
def fitK (width height padding : ℚ) (p : ℚ × ℚ) (rest : List (ℚ × ℚ)) : ℚ :=
  clampZoom (fitKRaw width height padding p rest)

/-- `fitBounds` (`src/components/MapComponent.tsx` lines 164-210),
returning the transform it applies, or `none` when it returns without
touching the viewport (empty coordinate list; the `minX === Infinity`
guard cannot fire on a nonempty list since the Mercator projection is
total). A degenerate box uses the fixed single-point zoom `k = 8`. -/
def fitBounds (width height padding : ℚ) (pts : List (ℚ × ℚ)) : Option ZoomTransform :=
  match pts with
  | [] => none
  | p :: rest =>
    if bbMaxX p rest - bbMinX p rest = 0 ∧ bbMaxY p rest - bbMinY p rest = 0 then
      some { k := 8, tx := width / 2 - 8 * bbMinX p rest, ty := height / 2 - 8 * bbMinY p rest }
    else
      some { k := fitK width height padding p rest
             tx := width / 2 - fitK width height padding p rest * (bbMinX p rest + bbMaxX p rest) / 2
             ty := height / 2 - fitK width height padding p rest * (bbMinY p rest + bbMaxY p rest) / 2 }

/-- Applying a fitting result to the current viewport: `none` leaves the
transform unchanged. -/
def applyFit (cur : ZoomTransform) (req : Option ZoomTransform) : ZoomTransform :=
  req.getD cur

/-- The coordinate list assembled by the EEW zoom effect
(`src/components/MapComponent.tsx` lines 285-303): the effect returns
before any fitting when the hypocenter name does not resolve; otherwise
it fits the origin plus every resolvable area name (when areas exist and
the Japan map data is loaded), or the origin alone. -/
def eewFitRequest (gaz : Gazetteer) (name : JStr) (areas : List JStr)
    (hasJapanData : Bool) : Option (List (ℚ × ℚ)) :=
  match findCoordinate gaz name with
  | none => none
  | some origin =>
    if 0 < areas.length ∧ hasJapanData = true then
      some (origin :: areas.filterMap (findCoordinate gaz))
    else some [origin]

/-- The EEW zoom effect end to end: viewport after the effect, given the
viewport before it. The effect calls `fitBounds(…, 0.35)`. -/
def eewAutoFit (width height : ℚ) (cur : ZoomTransform) (gaz : Gazetteer)
    (name : JStr) (areas : List JStr) (hasJapanData : Bool) : ZoomTransform :=
  match eewFitRequest gaz name areas hasJapanData with
  | none => cur
  | some coords => applyFit cur (fitBounds width height (7 / 20) coords)

/-- `V_P_WAVE = 6.5` (km/s). -/
def vPWave : ℚ := 13 / 2

/-- `V_S_WAVE = 3.5` (km/s). -/
def vSWave : ℚ := 7 / 2

/-- `KM_PER_DEG = 111.32`. -/
def kmPerDeg : ℚ := 11132 / 100

/-- `pRadiusKm = elapsedSec * V_P_WAVE`. -/
def pRadiusKm (elapsedSec : ℚ) : ℚ := elapsedSec * vPWave

/-- `sRadiusKm = elapsedSec * V_S_WAVE`. -/
def sRadiusKm (elapsedSec : ℚ) : ℚ := elapsedSec * vSWave

/-- `pRadiusDeg = pRadiusKm / KM_PER_DEG`. -/
def pRadiusDeg (elapsedSec : ℚ) : ℚ := pRadiusKm elapsedSec / kmPerDeg

/-- `sRadiusDeg = sRadiusKm / KM_PER_DEG`. -/
def sRadiusDeg (elapsedSec : ℚ) : ℚ := sRadiusKm elapsedSec / kmPerDeg

/-- A wave circle handed to the path generator (styling fields omitted). -/
structure WaveRing where
  kind : JStr
  radius : ℚ
deriving DecidableEq, Repr

/-- One iteration of `animate` (`src/components/MapComponent.tsx` lines
312-330): a negative elapsed time only re-schedules the loop (`none`,
nothing drawn); otherwise the P and S rings with their geographic radii
are drawn. `now` and `startTime` are in milliseconds. -/
def animateStep (now startTime : ℚ) : Option (List WaveRing) :=
  if (now - startTime) / 1000 < 0 then none
  else some [⟨['P'], pRadiusDeg ((now - startTime) / 1000)⟩,
             ⟨['S'], sRadiusDeg ((now - startTime) / 1000)⟩]

/-- `jsMin` is the lattice minimum. -/
theorem jsMin_eq_min (a b : ℚ) : jsMin a b = min a b := by
  unfold jsMin
  exact (min_def a b).symm

/-- The explicit-comparison min fold equals the lattice min fold. -/
theorem bbMinX_eq_foldl_min (p : ℚ × ℚ) (rest : List (ℚ × ℚ)) :
    bbMinX p rest = rest.foldl (fun a q => min a q.1) p.1 := by
  unfold bbMinX
  congr 1
  funext a q
  rw [min_def]
  by_cases h : q.1 < a
  · rw [if_pos h, if_neg (not_le.mpr h)]
  · rw [if_neg h, if_pos (not_lt.mp h)]

/-- The explicit-comparison max fold equals the lattice max fold. -/
theorem bbMaxX_eq_foldl_max (p : ℚ × ℚ) (rest : List (ℚ × ℚ)) :
    bbMaxX p rest = rest.foldl (fun a q => max a q.1) p.1 := by
  unfold bbMaxX
  congr 1
  funext a q
  rw [max_def]
  by_cases h : a < q.1
  · rw [if_pos h, if_pos h.le]
  · rw [if_neg h]
    by_cases h2 : a ≤ q.1
    · rw [if_pos h2, le_antisymm h2 (not_lt.mp h)]
    · rw [if_neg h2]

/-- The explicit-comparison min fold equals the lattice min fold (y). -/
theorem bbMinY_eq_foldl_min (p : ℚ × ℚ) (rest : List (ℚ × ℚ)) :
    bbMinY p rest = rest.foldl (fun a q => min a q.2) p.2 := by
  unfold bbMinY
  congr 1
  funext a q
  rw [min_def]
  by_cases h : q.2 < a
  · rw [if_pos h, if_neg (not_le.mpr h)]
  · rw [if_neg h, if_pos (not_lt.mp h)]

/-- The explicit-comparison max fold equals the lattice max fold (y). -/
theorem bbMaxY_eq_foldl_max (p : ℚ × ℚ) (rest : List (ℚ × ℚ)) :
    bbMaxY p rest = rest.foldl (fun a q => max a q.2) p.2 := by
  unfold bbMaxY
  congr 1
  funext a q
  rw [max_def]
  by_cases h : a < q.2
  · rw [if_pos h, if_pos h.le]
  · rw [if_neg h]
    by_cases h2 : a ≤ q.2
    · rw [if_pos h2, le_antisymm h2 (not_lt.mp h)]
    · rw [if_neg h2]

/-- `isPrefixOf` decides list-prefixhood. -/
theorem isPrefixOf_true_iff (l1 l2 : JStr) : l1.isPrefixOf l2 = true ↔ ∃ t, l1 ++ t = l2 := by
  induction l1 generalizing l2 with
  | nil => simp [List.isPrefixOf]
  | cons a as ih =>
    cases l2 with
    | nil => simp [List.isPrefixOf]
    | cons b bs =>
      simp [List.isPrefixOf, ih, List.cons_eq_cons, eq_comm (a := a)]

/-- `containsSub` decides contiguous containment. -/
theorem containsSub_true_iff (hay needle : JStr) :
    containsSub hay needle = true ↔ ∃ l1 l2, l1 ++ needle ++ l2 = hay := by
  induction hay with
  | nil =>
    constructor
    · intro h
      have hn : needle = [] := by simpa [containsSub, List.isEmpty_iff] using h
      exact ⟨[], [], by simp [hn]⟩
    · rintro ⟨l1, l2, hl⟩
      have h2 : needle = [] := (List.append_eq_nil.mp (List.append_eq_nil.mp hl).1).2
      simp [containsSub, h2]
  | cons c t ih =>
    simp only [containsSub, Bool.or_eq_true, isPrefixOf_true_iff, ih]
    constructor
    · rintro (⟨s, hs⟩ | ⟨l1, l2, hl⟩)
      · exact ⟨[], s, by simpa using hs⟩
      · exact ⟨c :: l1, l2, by simp [hl]⟩
    · rintro ⟨l1, l2, hl⟩
      cases l1 with
      | nil => exact Or.inl ⟨l2, by simpa using hl⟩
      | cons x l1 =>
        simp only [List.cons_append] at hl
        rcases List.cons_eq_cons.mp hl with ⟨rfl, hrest⟩
        exact Or.inr ⟨l1, l2, hrest⟩

/-- A key drawn from the key column of an association list can be looked up. -/
theorem lookup_of_mem_keys (gaz : Gazetteer) (k : JStr) (h : k ∈ gaz.map Prod.fst) :
    ∃ c, gaz.lookup k = some c := by
  induction gaz with
  | nil => simp at h
  | cons e rest ih =>
    obtain ⟨k1, v⟩ := e
    rw [List.map_cons, List.mem_cons] at h
    by_cases hk : (k == k1) = true
    · exact ⟨v, by simp [List.lookup, hk]⟩
    · have h2 : k ∈ rest.map Prod.fst := by
        rcases h with h1 | h1
        · exact absurd (by simp [h1]) hk
        · exact h1
      rcases ih h2 with ⟨c, hc⟩
      exact ⟨c, by simp [List.lookup, hk, hc]⟩

/-- A min-fold is bounded by its initial value. -/
theorem foldlMin_le_init {α : Type} (f : α → ℚ) (l : List α) (i : ℚ) :
    l.foldl (fun a x => min a (f x)) i ≤ i := by
  induction l generalizing i with
  | nil => simp
  | cons x xs ih => exact le_trans (ih (min i (f x))) (min_le_left _ _)

/-- A min-fold is bounded by each folded value. -/
theorem foldlMin_le_mem {α : Type} (f : α → ℚ) (l : List α) :
    ∀ (i : ℚ) {q : α}, q ∈ l → l.foldl (fun a x => min a (f x)) i ≤ f q := by
  induction l with
  | nil => intro i q h; simp at h
  | cons x xs ih =>
    intro i q h
    rcases List.mem_cons.mp h with rfl | h2
    · exact le_trans (foldlMin_le_init f xs _) (min_le_right _ _)
    · exact ih _ h2

/-- A max-fold dominates its initial value. -/
theorem init_le_foldlMax {α : Type} (f : α → ℚ) (l : List α) (i : ℚ) :
    i ≤ l.foldl (fun a x => max a (f x)) i := by
  induction l generalizing i with
  | nil => simp
  | cons x xs ih => exact le_trans (le_max_left _ _) (ih (max i (f x)))

/-- A max-fold dominates each folded value. -/
theorem mem_le_foldlMax {α : Type} (f : α → ℚ) (l : List α) :
    ∀ (i : ℚ) {q : α}, q ∈ l → f q ≤ l.foldl (fun a x => max a (f x)) i := by
  induction l with
  | nil => intro i q h; simp at h
  | cons x xs ih =>
    intro i q h
    rcases List.mem_cons.mp h with rfl | h2
    · exact le_trans (le_max_right _ _) (init_le_foldlMax f xs _)
    · exact ih _ h2

/-- Every point's x coordinate is at least the bounding-box minimum. -/
theorem bbMinX_le (p : ℚ × ℚ) (rest : List (ℚ × ℚ)) {q : ℚ × ℚ} (h : q ∈ p :: rest) :
    bbMinX p rest ≤ q.1 := by
  rw [bbMinX_eq_foldl_min]
  rcases List.mem_cons.mp h with rfl | h2
  · exact foldlMin_le_init Prod.fst rest q.1
  · exact foldlMin_le_mem Prod.fst rest p.1 h2

/-- Every point's x coordinate is at most the bounding-box maximum. -/
theorem le_bbMaxX (p : ℚ × ℚ) (rest : List (ℚ × ℚ)) {q : ℚ × ℚ} (h : q ∈ p :: rest) :
    q.1 ≤ bbMaxX p rest := by
  rw [bbMaxX_eq_foldl_max]
  rcases List.mem_cons.mp h with rfl | h2
  · exact init_le_foldlMax Prod.fst rest q.1
  · exact mem_le_foldlMax Prod.fst rest p.1 h2

/-- Every point's y coordinate is at least the bounding-box minimum. -/
theorem bbMinY_le (p : ℚ × ℚ) (rest : List (ℚ × ℚ)) {q : ℚ × ℚ} (h : q ∈ p :: rest) :
    bbMinY p rest ≤ q.2 := by
  rw [bbMinY_eq_foldl_min]
  rcases List.mem_cons.mp h with rfl | h2
  · exact foldlMin_le_init Prod.snd rest q.2
  · exact foldlMin_le_mem Prod.snd rest p.2 h2

/-- Every point's y coordinate is at most the bounding-box maximum. -/
theorem le_bbMaxY (p : ℚ × ℚ) (rest : List (ℚ × ℚ)) {q : ℚ × ℚ} (h : q ∈ p :: rest) :
    q.2 ≤ bbMaxY p rest := by
  rw [bbMaxY_eq_foldl_max]
  rcases List.mem_cons.mp h with rfl | h2
  · exact init_le_foldlMax Prod.snd rest q.2
  · exact mem_le_foldlMax Prod.snd rest p.2 h2

/-- A non-cancel forecast frame carrying the finality flag. -/
def frameFinal : WolfxEEWData :=
  { isCancel := none, Title := ['予', '報'], isFinal := some true, Hypocenter := none
    Magnitude := none, Depth := none, MaxIntensity := none, AnnouncedTime := none }

/-- A later non-cancel frame of the same event without the finality flag. -/
def frameRefresh : WolfxEEWData :=
  { isCancel := none, Title := ['予', '報'], isFinal := none, Hypocenter := none
    Magnitude := none, Depth := none, MaxIntensity := none, AnnouncedTime := none }

/-- C1 counterexample: a final frame followed by a non-final frame of the
same event leaves `isFinal = false`, although a frame in the sequence
carried finality — `isFinal` does regress from true to false. -/
theorem eew_isFinal_regression_counterexample :
    isCancelFrame frameFinal = false ∧ isCancelFrame frameRefresh = false ∧
    frameFinal.isFinal.getD false = true ∧
    (processFrames 0 initialEEW [frameFinal, frameRefresh]).isFinal = false := by decide

/-- C1 (amended): for a sequence of non-cancel frames, the resulting
`EEWState.isFinal` equals the finality flag of the last frame alone
(false when absent); the handler overwrites the whole state per frame,
so finality is not monotone. -/
theorem eew_isFinal_equals_last_frame (now : ℤ) (st : EEWState)
    (fs : List WolfxEEWData) (f : WolfxEEWData) (h : isCancelFrame f = false) :
    (processFrames now st (fs ++ [f])).isFinal = f.isFinal.getD false := by
  unfold processFrames
  rw [List.foldl_append]
  simp [stepEEW, handleLiveWolfxEEW, h]

theorem eew_isFinal_equals_last_frame_witness :
    (processFrames 0 initialEEW ([frameFinal] ++ [frameRefresh])).isFinal = false :=
  (eew_isFinal_equals_last_frame 0 initialEEW [frameFinal] frameRefresh (by decide)).trans
    (by decide)

/-- C2: a frame whose explicit cancel flag is set or whose title contains
the cancel marker drives the state to `isActive = false` with an empty
target-area list, whatever the prior state was. -/
theorem cancel_frame_forces_inactive (now : ℤ) (st : EEWState) (d : WolfxEEWData)
    (h : isCancelFrame d = true) :
    (stepEEW now st d).isActive = false ∧ (stepEEW now st d).areas = [] := by
  simp [stepEEW, handleLiveWolfxEEW, h]

/-- A cancel frame recognised through its title marker. -/
def frameCancelTitle : WolfxEEWData :=
  { isCancel := none, Title := ['取', '消', '報'], isFinal := none, Hypocenter := none
    Magnitude := none, Depth := none, MaxIntensity := none, AnnouncedTime := none }

/-- A prior state that is active, warning and final, with target areas. -/
def stWarm : EEWState :=
  { initialEEW with isActive := true, isWarning := true, isFinal := true
                    areas := [['和']], updatedTime := some 5 }

theorem cancel_frame_forces_inactive_witness :
    (stepEEW 0 stWarm frameCancelTitle).isActive = false ∧
    (stepEEW 0 stWarm frameCancelTitle).areas = [] :=
  cancel_frame_forces_inactive 0 stWarm frameCancelTitle (by decide)

/-- An active, already-final state whose last update is stale. -/
def stFinalStale : EEWState :=
  { initialEEW with isActive := true, isFinal := true
                    areas := [['和']], updatedTime := some 1 }

/-- C3 counterexample: the timeout effect guards only on live mode and
`isActive`, so a stale state with `isFinal = true` is cleared as well —
the claim that a final state is never cleared by the timeout fails. -/
theorem timeout_clears_final_state_counterexample :
    stFinalStale.isActive = true ∧ stFinalStale.isFinal = true ∧
    (eewTimeoutTick ViewMode.live 20002 stFinalStale).isActive = false ∧
    (eewTimeoutTick ViewMode.live 20002 stFinalStale).areas = [] := by decide

/-- C3 (amended): the staleness check runs whenever the mode is live and
the state active — regardless of finality — and then clears any state
whose last update is more than 20 seconds old (`isFinal` is preserved,
not consulted); outside live-and-active the state is untouched. -/
theorem eew_timeout_behavior (mode : ViewMode) (now : ℤ) (st : EEWState) :
    (mode = ViewMode.live → st.isActive = true → ∀ t, st.updatedTime = some t → t ≠ 0 →
      now - t > 20000 →
      (eewTimeoutTick mode now st).isActive = false ∧
      (eewTimeoutTick mode now st).areas = [] ∧
      (eewTimeoutTick mode now st).isFinal = st.isFinal)
    ∧ (¬ (mode = ViewMode.live ∧ st.isActive = true) → eewTimeoutTick mode now st = st) := by
  constructor
  · intro hm ha t ht htz hstale
    simp [eewTimeoutTick, hm, ha, ht, htz, hstale]
  · intro h
    unfold eewTimeoutTick
    rw [if_neg h]

theorem eew_timeout_behavior_witness :
    (eewTimeoutTick ViewMode.live 20002 stFinalStale).isActive = false :=
  ((eew_timeout_behavior ViewMode.live 20002 stFinalStale).1 rfl (by decide) 1 (by decide)
    (by decide) (by decide)).1

/-- C4 counterexample: a parse failure on either feed neither closes the
socket nor schedules the 5-second reconnection — the Wolfx handler only
logs, the P2P handler lets the exception escape. -/
theorem parse_failure_no_reconnect_counterexample :
    wolfxOnMessage none = [FeedAction.logParseError] ∧
    p2pOnMessage none = [FeedAction.raiseUncaught] ∧
    FeedAction.closeSocket ∉ wolfxOnMessage none ∧
    FeedAction.scheduleReconnect 5000 ∉ wolfxOnMessage none ∧
    FeedAction.closeSocket ∉ p2pOnMessage none ∧
    FeedAction.scheduleReconnect 5000 ∉ p2pOnMessage none := by decide

/-- C4 (amended): a message whose payload fails to parse is not treated
as a transport failure: the Wolfx feed catches and logs it and the P2P
feed raises an uncaught exception, in both cases leaving the socket
open; the disconnect-then-reconnect-in-5-seconds behaviour belongs to
the close handlers only, and a transport error closes the socket. -/
theorem parse_failure_vs_transport_failure :
    wolfxOnMessage none = [FeedAction.logParseError] ∧
    p2pOnMessage none = [FeedAction.raiseUncaught] ∧
    wolfxOnClose = [FeedAction.setDisconnected, FeedAction.scheduleReconnect 5000] ∧
    p2pOnClose = [FeedAction.setDisconnected, FeedAction.scheduleReconnect 5000] ∧
    wolfxOnError = [FeedAction.closeSocket] ∧
    p2pOnError = [FeedAction.closeSocket] := by decide

/-- A key selected by `matchKey` comes from the key list. -/
theorem matchKey_mem (keys : List JStr) (name k : JStr) (h : matchKey keys name = some k) :
    k ∈ keys := by
  unfold matchKey at h
  cases h1 : keys.find? (fun j => j == name) with
  | some k1 =>
    rw [h1] at h
    exact (Option.some.inj h) ▸ List.mem_of_find?_eq_some h1
  | none =>
    rw [h1] at h
    cases h2 : keys.find? (fun j => j.isPrefixOf name) with
    | some k2 =>
      rw [h2] at h
      exact (Option.some.inj h) ▸ List.mem_of_find?_eq_some h2
    | none =>
      rw [h2] at h
      exact List.mem_of_find?_eq_some h

/-- `matchKey` fails exactly when all three search modes fail. -/
theorem matchKey_eq_none_iff (keys : List JStr) (name : JStr) :
    matchKey keys name = none ↔
      keys.find? (fun j => j == name) = none ∧
      keys.find? (fun j => j.isPrefixOf name) = none ∧
      keys.find? (fun j => containsSub name j) = none := by
  unfold matchKey
  cases h1 : keys.find? (fun j => j == name) with
  | some k => simp [h1]
  | none =>
    cases h2 : keys.find? (fun j => j.isPrefixOf name) with
    | some k => simp [h2]
    | none => simp [h2]

/-- C5: `findCoordinate` resolves a name against the gazetteer by exact
match first, then prefix match, then substring match, returning the
entry of the first key found under that priority; it is unresolved
(`none`) exactly when no key matches under any of the three modes. -/
theorem findCoordinate_priority (gaz : Gazetteer) (name : JStr) :
    (findCoordinate gaz name = none ↔
      ∀ k ∈ gaz.map Prod.fst,
        ¬ k = name ∧ (¬ ∃ t, k ++ t = name) ∧ ¬ ∃ l1 l2, l1 ++ k ++ l2 = name)
    ∧ (∀ k, (gaz.map Prod.fst).find? (fun j => j == name) = some k →
        findCoordinate gaz name = (gaz.lookup k).map (fun c => (c.2, c.1)))
    ∧ ((∀ j ∈ gaz.map Prod.fst, j ≠ name) →
        ∀ k, (gaz.map Prod.fst).find? (fun j => j.isPrefixOf name) = some k →
        findCoordinate gaz name = (gaz.lookup k).map (fun c => (c.2, c.1)))
    ∧ ((∀ j ∈ gaz.map Prod.fst, j ≠ name ∧ ¬ ∃ t, j ++ t = name) →
        ∀ k, (gaz.map Prod.fst).find? (fun j => containsSub name j) = some k →
        findCoordinate gaz name = (gaz.lookup k).map (fun c => (c.2, c.1))) := by
  refine ⟨⟨?_, ?_⟩, ?_, ?_, ?_⟩
  · intro h
    have hm : matchKey (gaz.map Prod.fst) name = none := by
      cases hm : matchKey (gaz.map Prod.fst) name with
      | none => rfl
      | some k0 =>
        rcases lookup_of_mem_keys gaz k0 (matchKey_mem _ _ _ hm) with ⟨c, hc⟩
        simp [findCoordinate, hm, hc] at h
    rw [matchKey_eq_none_iff] at hm
    obtain ⟨h1, h2, h3⟩ := hm
    rw [List.find?_eq_none] at h1 h2 h3
    intro k hk
    refine ⟨?_, ?_, ?_⟩
    · intro he
      exact h1 k hk (by simp [he])
    · rintro ⟨t, ht⟩
      exact h2 k hk ((isPrefixOf_true_iff k name).mpr ⟨t, ht⟩)
    · rintro ⟨l1, l2, hl⟩
      exact h3 k hk ((containsSub_true_iff name k).mpr ⟨l1, l2, hl⟩)
  · intro hall
    have hm : matchKey (gaz.map Prod.fst) name = none := by
      rw [matchKey_eq_none_iff]
      refine ⟨?_, ?_, ?_⟩
      · exact List.find?_eq_none.mpr (fun j hj hbe => (hall j hj).1 (by simpa using hbe))
      · exact List.find?_eq_none.mpr
          (fun j hj hp => (hall j hj).2.1 ((isPrefixOf_true_iff j name).mp hp))
      · exact List.find?_eq_none.mpr
          (fun j hj hs => (hall j hj).2.2 ((containsSub_true_iff name j).mp hs))
    simp [findCoordinate, hm]
  · intro k h
    have hm : matchKey (gaz.map Prod.fst) name = some k := by
      simp [matchKey, h]
    cases hc : gaz.lookup k <;> simp [findCoordinate, hm, hc]
  · intro hne k h
    have h1 : (gaz.map Prod.fst).find? (fun j => j == name) = none :=
      List.find?_eq_none.mpr (fun j hj hbe => hne j hj (by simpa using hbe))
    have hm : matchKey (gaz.map Prod.fst) name = some k := by
      simp [matchKey, h1, h]
    cases hc : gaz.lookup k <;> simp [findCoordinate, hm, hc]
  · intro hall k h
    have h1 : (gaz.map Prod.fst).find? (fun j => j == name) = none :=
      List.find?_eq_none.mpr (fun j hj hbe => (hall j hj).1 (by simpa using hbe))
    have h2 : (gaz.map Prod.fst).find? (fun j => j.isPrefixOf name) = none :=
      List.find?_eq_none.mpr
        (fun j hj hp => (hall j hj).2 ((isPrefixOf_true_iff j name).mp hp))
    have hm : matchKey (gaz.map Prod.fst) name = some k := by
      simp [matchKey, h1, h2, h]
    cases hc : gaz.lookup k <;> simp [findCoordinate, hm, hc]

/-- A two-entry gazetteer used to instantiate `findCoordinate_priority`. -/
def gazSmall : Gazetteer := [(['東'], (10, 20)), (['大', '阪'], (3, 4))]

theorem findCoordinate_priority_witness :
    findCoordinate gazSmall ['大', '阪'] = some (4, 3) := by
  have h := (findCoordinate_priority gazSmall ['大', '阪']).2.1 ['大', '阪'] (by decide)
  exact h.trans (by decide)

/-- The sequential clamp of the source equals clamping into `[1/5, 8]`. -/
theorem clampZoom_eq_max_min (k : ℚ) : clampZoom k = max (1/5) (min 8 k) := by
  unfold clampZoom
  split_ifs with h1 h2
  · rw [min_eq_left h1.le, max_eq_right]
    norm_num
  · rw [min_eq_right (by linarith : k ≤ 8), max_eq_left h2.le]
  · rw [min_eq_right (not_lt.mp h1), max_eq_right (not_lt.mp h2)]

/-- The clamped zoom lies in `[1/5, 8]`. -/
theorem clampZoom_bounds (k : ℚ) : 1/5 ≤ clampZoom k ∧ clampZoom k ≤ 8 := by
  rw [clampZoom_eq_max_min]
  exact ⟨le_max_left _ _, max_le (by norm_num) (min_le_left _ _)⟩

/-- When the raw factor is at least the minimum zoom, clamping cannot
increase it. -/
theorem clampZoom_le_self {k : ℚ} (h : 1/5 ≤ k) : clampZoom k ≤ k := by
  rw [clampZoom_eq_max_min]
  exact max_le h (min_le_right _ _)

/-- Per-axis containment: if the scale times the box size fits the
padded viewport, every box coordinate lands inside the padded band
after the centering translation. -/
theorem fit_axis_bounds (w pad K m M x : ℚ) (hK : 0 < K)
    (hKb : K * (M - m) ≤ w * (1 - pad * 2)) (hxm : m ≤ x) (hxM : x ≤ M) :
    pad * w ≤ K * x + (w / 2 - K * (m + M) / 2) ∧
    K * x + (w / 2 - K * (m + M) / 2) ≤ (1 - pad) * w := by
  have h1 := mul_le_mul_of_nonneg_left hxm hK.le
  have h2 := mul_le_mul_of_nonneg_left hxM hK.le
  constructor <;> nlinarith [h1, h2, hKb]

/-- C6 (amended): on a non-degenerate box, `fitBounds` applies the scale
`min(scaleX, scaleY)` clamped into `[1/5, 8]` with the centering
translation; the scale lies in the clamp range, and — provided the raw
factor is at least the minimum zoom, i.e. the lower clamp does not
engage — every input point lands inside the viewport minus the padding
band. -/
theorem fitBounds_nondegenerate_spec
    (width height padding : ℚ) (p : ℚ × ℚ) (rest : List (ℚ × ℚ))
    (hw : 0 < width) (hh : 0 < height) (hp0 : 0 ≤ padding) (hp1 : padding < 1/2)
    (hbw : 0 < bbMaxX p rest - bbMinX p rest)
    (hbh : 0 < bbMaxY p rest - bbMinY p rest)
    (hmin : 1/5 ≤ min (fitScaleX width padding p rest) (fitScaleY height padding p rest)) :
    fitBounds width height padding (p :: rest)
      = some { k := fitK width height padding p rest
               tx := width / 2 - fitK width height padding p rest * (bbMinX p rest + bbMaxX p rest) / 2
               ty := height / 2 - fitK width height padding p rest * (bbMinY p rest + bbMaxY p rest) / 2 }
    ∧ fitK width height padding p rest
      = max (1/5) (min 8 (min (fitScaleX width padding p rest) (fitScaleY height padding p rest)))
    ∧ 1/5 ≤ fitK width height padding p rest
    ∧ fitK width height padding p rest ≤ 8
    ∧ ∀ q ∈ p :: rest,
        padding * width
          ≤ fitK width height padding p rest * q.1
            + (width / 2 - fitK width height padding p rest * (bbMinX p rest + bbMaxX p rest) / 2) ∧
        fitK width height padding p rest * q.1
            + (width / 2 - fitK width height padding p rest * (bbMinX p rest + bbMaxX p rest) / 2)
          ≤ (1 - padding) * width ∧
        padding * height
          ≤ fitK width height padding p rest * q.2
            + (height / 2 - fitK width height padding p rest * (bbMinY p rest + bbMaxY p rest) / 2) ∧
        fitK width height padding p rest * q.2
            + (height / 2 - fitK width height padding p rest * (bbMinY p rest + bbMaxY p rest) / 2)
          ≤ (1 - padding) * height := by
  have hbw' : bbMaxX p rest - bbMinX p rest ≠ 0 := ne_of_gt hbw
  have hbh' : bbMaxY p rest - bbMinY p rest ≠ 0 := ne_of_gt hbh
  have hkraw : fitKRaw width height padding p rest
      = min (fitScaleX width padding p rest) (fitScaleY height padding p rest) := by
    unfold fitKRaw
    rw [if_neg hbw', if_neg hbh', jsMin_eq_min]
  have hkeq : fitK width height padding p rest
      = max (1/5) (min 8 (min (fitScaleX width padding p rest) (fitScaleY height padding p rest))) := by
    unfold fitK
    rw [hkraw, clampZoom_eq_max_min]
  have hK5 : 1/5 ≤ fitK width height padding p rest := (clampZoom_bounds _).1
  have hK8 : fitK width height padding p rest ≤ 8 := (clampZoom_bounds _).2
  have hKle : fitK width height padding p rest
      ≤ min (fitScaleX width padding p rest) (fitScaleY height padding p rest) := by
    unfold fitK
    rw [hkraw]
    exact clampZoom_le_self hmin
  have hK0 : 0 < fitK width height padding p rest := lt_of_lt_of_le (by norm_num) hK5
  have hKbX : fitK width height padding p rest * (bbMaxX p rest - bbMinX p rest)
      ≤ width * (1 - padding * 2) := by
    have h1 : fitK width height padding p rest ≤ fitScaleX width padding p rest :=
      le_trans hKle (min_le_left _ _)
    have h2 := mul_le_mul_of_nonneg_right h1 (le_of_lt hbw)
    have h3 : fitScaleX width padding p rest * (bbMaxX p rest - bbMinX p rest)
        = width * (1 - padding * 2) := by
      unfold fitScaleX
      exact div_mul_cancel₀ _ hbw'
    exact h3 ▸ h2
  have hKbY : fitK width height padding p rest * (bbMaxY p rest - bbMinY p rest)
      ≤ height * (1 - padding * 2) := by
    have h1 : fitK width height padding p rest ≤ fitScaleY height padding p rest :=
      le_trans hKle (min_le_right _ _)
    have h2 := mul_le_mul_of_nonneg_right h1 (le_of_lt hbh)
    have h3 : fitScaleY height padding p rest * (bbMaxY p rest - bbMinY p rest)
        = height * (1 - padding * 2) := by
      unfold fitScaleY
      exact div_mul_cancel₀ _ hbh'
    exact h3 ▸ h2
  refine ⟨?_, hkeq, hK5, hK8, ?_⟩
  · simp only [fitBounds]
    rw [if_neg (fun hc => hbw' hc.1)]
  · intro q hq
    obtain ⟨ha, hb⟩ := fit_axis_bounds width padding _ _ _ _ hK0 hKbX
      (bbMinX_le p rest hq) (le_bbMaxX p rest hq)
    obtain ⟨hc, hd⟩ := fit_axis_bounds height padding _ _ _ _ hK0 hKbY
      (bbMinY_le p rest hq) (le_bbMaxY p rest hq)
    exact ⟨ha, hb, hc, hd⟩

theorem fitBounds_nondegenerate_spec_witness :
    fitBounds 100 100 0 [((0 : ℚ), (0 : ℚ)), (10, 10)]
      = some { k := fitK 100 100 0 (0, 0) [(10, 10)]
               tx := 100 / 2 - fitK 100 100 0 (0, 0) [(10, 10)] * (bbMinX (0, 0) [(10, 10)] + bbMaxX (0, 0) [(10, 10)]) / 2
               ty := 100 / 2 - fitK 100 100 0 (0, 0) [(10, 10)] * (bbMinY (0, 0) [(10, 10)] + bbMaxY (0, 0) [(10, 10)]) / 2 }
    ∧ 1/5 ≤ fitK 100 100 0 (0, 0) [(10, 10)]
    ∧ fitK 100 100 0 (0, 0) [(10, 10)] ≤ 8 := by
  have h := fitBounds_nondegenerate_spec 100 100 0 (0, 0) [(10, 10)]
    (by norm_num) (by norm_num) le_rfl (by norm_num)
    (by norm_num [bbMaxX, bbMinX])
    (by norm_num [bbMaxY, bbMinY])
    (by norm_num [fitScaleX, fitScaleY, bbMaxX, bbMinX, bbMaxY, bbMinY, min_self])
  exact ⟨h.1, h.2.2.1, h.2.2.2.1⟩

/-- C6 counterexample: with a huge bounding box the lower clamp engages
(`k = 1/5 > min(scaleX, scaleY)`), and the second input point is mapped
to screen x `1/5 * 1000 - 50 = 150`, outside the padded band whose
right edge is `(1 - 0.35) * 100 = 65` — containment fails whenever the
minimum-zoom clamp fires. -/
theorem fitBounds_containment_counterexample :
    fitBounds 100 100 (7/20) [((0 : ℚ), (0 : ℚ)), (1000, 1000)]
      = some { k := 1/5, tx := -50, ty := -50 }
    ∧ ¬ ((1/5 : ℚ) * 1000 + (-50) ≤ (1 - 7/20) * 100) := by
  constructor
  · norm_num [fitBounds, fitK, fitKRaw, fitScaleX, fitScaleY, clampZoom, jsMin,
      bbMaxX, bbMinX, bbMaxY, bbMinY]
  · norm_num

/-- C7: for positive elapsed time the primary-wave radius strictly
exceeds the secondary-wave radius (in km and in degrees), and both
radii are monotonically non-decreasing in the elapsed time. -/
theorem wave_radii_ordering (d d1 d2 : ℚ) (hd : 0 < d) (h1 : 0 ≤ d1) (h12 : d1 ≤ d2) :
    sRadiusKm d < pRadiusKm d ∧ sRadiusDeg d < pRadiusDeg d ∧
    pRadiusKm d1 ≤ pRadiusKm d2 ∧ sRadiusKm d1 ≤ sRadiusKm d2 ∧
    pRadiusDeg d1 ≤ pRadiusDeg d2 ∧ sRadiusDeg d1 ≤ sRadiusDeg d2 := by
  unfold sRadiusDeg pRadiusDeg sRadiusKm pRadiusKm vPWave vSWave kmPerDeg
  refine ⟨by linarith, ?_, by linarith, by linarith, ?_, ?_⟩
  · rw [div_lt_div_iff_of_pos_right (by norm_num : (0 : ℚ) < 11132 / 100)]
    linarith
  · gcongr
  · gcongr

theorem wave_radii_ordering_witness :
    sRadiusKm 2 < pRadiusKm 2 ∧ sRadiusDeg 2 < pRadiusDeg 2 ∧
    pRadiusKm 1 ≤ pRadiusKm 3 ∧ sRadiusKm 1 ≤ sRadiusKm 3 ∧
    pRadiusDeg 1 ≤ pRadiusDeg 3 ∧ sRadiusDeg 1 ≤ sRadiusDeg 3 :=
  wave_radii_ordering 2 1 3 (by norm_num) (by norm_num) (by norm_num)

/-- C8: when the computed elapsed time is negative the animator draws
nothing for that iteration, and any rings it does draw have
non-negative radii. -/
theorem animate_no_negative_rings (now startTime : ℚ) :
    ((now - startTime) / 1000 < 0 → animateStep now startTime = none)
    ∧ ∀ ws, animateStep now startTime = some ws → ∀ w ∈ ws, 0 ≤ w.radius := by
  constructor
  · intro h
    unfold animateStep
    rw [if_pos h]
  · intro ws hws w hw
    unfold animateStep at hws
    by_cases h : (now - startTime) / 1000 < 0
    · rw [if_pos h] at hws
      cases hws
    · rw [if_neg h] at hws
      have h0 : 0 ≤ (now - startTime) / 1000 := not_lt.mp h
      obtain rfl := Option.some.inj hws
      rcases (by simpa using hw :
          w = ⟨['P'], pRadiusDeg ((now - startTime) / 1000)⟩ ∨
          w = ⟨['S'], sRadiusDeg ((now - startTime) / 1000)⟩) with rfl | rfl <;>
        · simp only [pRadiusDeg, sRadiusDeg, pRadiusKm, sRadiusKm, vPWave, vSWave, kmPerDeg]
          exact div_nonneg (mul_nonneg h0 (by norm_num)) (by norm_num)

theorem animate_no_negative_rings_witness : animateStep 0 1000 = none :=
  (animate_no_negative_rings 0 1000).1 (by norm_num)

/-- C9 counterexample: with the gazetteer `{A ↦ (1, 2)}`, the epicenter
name `B` does not resolve while the area name `A` does; the EEW zoom
effect leaves the viewport untouched instead of fitting the resolvable
subset, whose fit would have changed the transform. -/
theorem eew_unresolvable_epicenter_counterexample :
    eewAutoFit 100 100 { k := 3, tx := 4, ty := 5 } [(['A'], ((1 : ℚ), 2))] ['B'] [['A']] true
      = { k := 3, tx := 4, ty := 5 }
    ∧ List.filterMap (findCoordinate [(['A'], ((1 : ℚ), 2))]) [['A']] = [((2 : ℚ), 1)]
    ∧ applyFit { k := 3, tx := 4, ty := 5 }
        (fitBounds 100 100 (7/20) [((2 : ℚ), 1)])
      ≠ { k := 3, tx := 4, ty := 5 } := by
  refine ⟨rfl, rfl, ?_⟩
  norm_num [applyFit, fitBounds, bbMaxX, bbMinX, bbMaxY, bbMinY]

/-- C9 (amended): an empty coordinate list leaves the viewport transform
unchanged; an unresolvable epicenter name aborts the EEW fit entirely
(viewport unchanged) even when area names resolve; when the epicenter
resolves and areas are present with map data loaded, the fit request is
exactly the origin plus the resolvable subset of the area names. -/
theorem eew_fit_behavior (w h : ℚ) (cur : ZoomTransform) (gaz : Gazetteer)
    (name : JStr) (areas : List JStr) (hasJapan : Bool) :
    applyFit cur (fitBounds w h (7/20) []) = cur
    ∧ (findCoordinate gaz name = none → eewAutoFit w h cur gaz name areas hasJapan = cur)
    ∧ (∀ o, findCoordinate gaz name = some o → areas ≠ [] → hasJapan = true →
        eewFitRequest gaz name areas hasJapan
          = some (o :: areas.filterMap (findCoordinate gaz))) := by
  refine ⟨rfl, ?_, ?_⟩
  · intro hn
    simp [eewAutoFit, eewFitRequest, hn]
  · intro o ho hareas hj
    simp only [eewFitRequest, ho]
    rw [if_pos ⟨List.length_pos.mpr hareas, hj⟩]

theorem eew_fit_behavior_witness :
    eewAutoFit 100 100 { k := 1, tx := 0, ty := 0 } [(['A'], ((1 : ℚ), 2))] ['B'] [] false
      = { k := 1, tx := 0, ty := 0 } :=
  (eew_fit_behavior 100 100 { k := 1, tx := 0, ty := 0 } [(['A'], ((1 : ℚ), 2))] ['B'] [] false).2.1
    rfl

/-- A non-cancel frame whose magnitude text is the `Infinity` literal. -/
def frameInfinity : WolfxEEWData :=
  { isCancel := none, Title := ['E', 'E', 'W'], isFinal := none, Hypocenter := none
    Magnitude := some ['I', 'n', 'f', 'i', 'n', 'i', 't', 'y'], Depth := none
    MaxIntensity := none, AnnouncedTime := none }

/-- C10 counterexample: `parseFloat("Infinity")` is not NaN, so the
`!isNaN` guard admits it and the stored magnitude is positive infinity,
which is neither a finite number nor undefined. -/
theorem magnitude_infinity_counterexample :
    isCancelFrame frameInfinity = false
    ∧ (handleLiveWolfxEEW 0 frameInfinity).magnitude = some JSNum.posInf := by
  constructor
  · decide
  · decide

/-- C10 (amended): for any non-cancel frame, the stored magnitude is
never NaN (a magnitude text that fails to parse yields no magnitude at
all), the stored depth is undefined or a parsed natural number, and the
frame is still processed into an active state. -/
theorem magnitude_depth_parse_safety (now : ℤ) (d : WolfxEEWData)
    (h : isCancelFrame d = false) :
    (handleLiveWolfxEEW now d).magnitude ≠ some JSNum.nan
    ∧ ((handleLiveWolfxEEW now d).depth = none
        ∨ ∃ n : ℕ, (handleLiveWolfxEEW now d).depth = some n)
    ∧ (∀ s, d.Magnitude = some s → parseFloat s = JSNum.nan →
        (handleLiveWolfxEEW now d).magnitude = none)
    ∧ (handleLiveWolfxEEW now d).isActive = true := by
  refine ⟨?_, ?_, ?_, ?_⟩
  · simp only [handleLiveWolfxEEW, h]
    cases hm : d.Magnitude with
    | none => simp
    | some s =>
      by_cases he : s.isEmpty
      · simp [he]
      · by_cases hn : (parseFloat s).isNaN
        · simp [he, hn]
        · simp only [he, hn, Bool.false_eq_true, if_false, ne_eq, Option.some.injEq]
          intro hq
          rw [hq] at hn
          simp [JSNum.isNaN] at hn
  · cases hd : (handleLiveWolfxEEW now d).depth with
    | none => exact Or.inl rfl
    | some n => exact Or.inr ⟨n, rfl⟩
  · intro s hs hnan
    simp only [handleLiveWolfxEEW, h]
    rw [hs]
    by_cases he : s.isEmpty
    · simp [he]
    · simp [he, hnan, JSNum.isNaN]
  · simp [handleLiveWolfxEEW, h]

/-- A non-cancel frame with unparsable magnitude and depth texts. -/
def frameBadMag : WolfxEEWData :=
  { isCancel := none, Title := ['E', 'E', 'W'], isFinal := none, Hypocenter := none
    Magnitude := some ['x'], Depth := some ['a', 'b'], MaxIntensity := none
    AnnouncedTime := none }

theorem magnitude_depth_parse_safety_witness :
    (handleLiveWolfxEEW 0 frameBadMag).magnitude = none :=
  (magnitude_depth_parse_safety 0 frameBadMag (by decide)).2.2.1 ['x'] rfl (by decide)
